import Mathlib

/-!
Shallow embedding of `temps.py` and `notify.py` (a personal working-time
tracker).  Python `datetime.time` values are pairs of naturals, dates are
triples; the clock (`datetime.datetime.now()`) is passed explicitly.
Fallible computations (`ValueError`, `IndexError`, failing `assert`)
return `Option`/an `error` result.
-/

set_option maxRecDepth 4000

/-- Model of `datetime.time` restricted to minute precision, as used by the
program (seconds are never read). Construction in Python validates
`0 ≤ hour ≤ 23` and `0 ≤ minute ≤ 59`; that check is made explicit at the
construction sites that can receive out-of-range values. -/
structure Time where
  hour : Nat
  minute : Nat
deriving DecidableEq, Repr

/-- Model of `datetime.date`. The program formats dates as two-digit
`yy/mm/dd` strings and compares those strings; on the in-range dates the
program can produce, string comparison coincides with lexicographic
comparison of the `(y, m, d)` triple, so the embedding compares triples. -/
structure Date where
  y : Nat
  m : Nat
  d : Nat
deriving DecidableEq, Repr

/-- The clock source: current date (`date_from_now`) and current time of day
(`datetime_time_from_now`), both at minute precision. -/
structure Clock where
  today : Date
  now : Time
deriving DecidableEq, Repr

/-- One row of the time log (`class Entry` of `temps.py`): a base date, a
start time and an optional stop time (`None` meaning unfinished). -/
structure Entry where
  date_base : Date
  time_start : Time
  time_stop : Option Time
deriving DecidableEq, Repr

/-- Lexicographic strict order on dates; equals Python string comparison of
the zero-padded `yy/mm/dd` renderings for in-range components. -/
def dateLt (a b : Date) : Prop :=
  a.y < b.y ∨ (a.y = b.y ∧ (a.m < b.m ∨ (a.m = b.m ∧ a.d < b.d)))

instance (a b : Date) : Decidable (dateLt a b) := by
  unfold dateLt; infer_instance

/-- Lexicographic weak order on dates. -/
def dateLe (a b : Date) : Prop := dateLt a b ∨ a = b

instance (a b : Date) : Decidable (dateLe a b) := by
  unfold dateLe; infer_instance

/-- Binary max of two dates; `max` in Python keeps the current value on
ties, so the later argument wins only when strictly greater. -/
def dateMax (a b : Date) : Date := if dateLt a b then b else a

/-- Model of `max(date for date, _, _ in entries)` (line 145 of temps.py):
maximum over the dates of a list, `none` on the empty list (where Python
`max` raises `ValueError`). -/
def maxDateOf : List Date → Option Date
  | [] => none
  | d :: ds => some (ds.foldl dateMax d)

/-- Minutes since midnight of a time of day (`datetime_time_to_minutes`,
also inlined at lines 57, 60, 62, 186 of temps.py). -/
def timeToMinutes (t : Time) : Nat := t.hour * 60 + t.minute

/-- Model of `Entry.working_time`: minutes from start to stop (or to the
clock's `now` for an unfinished entry), re-packed through
`datetime.time(hour=wt // 60, minute=wt % 60)`.  The `datetime.time`
constructor raises `ValueError` unless `0 ≤ hour ≤ 23` and
`0 ≤ minute ≤ 59`, hence the guard (a negative duration makes the hour
component negative and fails). -/
def Entry.working_time (e : Entry) (clock : Clock) : Option Time :=
  let start : Int := timeToMinutes e.time_start
  let stop : Int :=
    match e.time_stop with
    | none => timeToMinutes clock.now
    | some t => timeToMinutes t
  let wt : Int := stop - start
  if 0 ≤ wt.fdiv 60 ∧ wt.fdiv 60 ≤ 23 ∧ 0 ≤ wt.fmod 60 ∧ wt.fmod 60 ≤ 59
  then some ⟨(wt.fdiv 60).toNat, (wt.fmod 60).toNat⟩
  else none

/-- Per-entry worked minutes as accumulated by the stats loop (lines
185-186 of temps.py): `working_time` unpacked back into minutes. -/
def entryMinutes (clock : Clock) (e : Entry) : Option Nat :=
  (e.working_time clock).map timeToMinutes

/-- Model of `Entry.now_arrived()`: a fresh unfinished entry dated and
started at the clock's current date and time. -/
def Entry.now_arrived (clock : Clock) : Entry :=
  ⟨clock.today, clock.now, none⟩

/-- Model of `optimal_worktime = int(hours_per_day * 60)` (line 199 of
temps.py): Python `int()` truncates toward zero, and the exact product
`q * 60` is the fraction `(q.num * 60) / q.den`, so its truncation is the
truncating integer division of `q.num * 60` by `q.den`. -/
def optimal_worktime (q : ℚ) : Int := Int.tdiv (q.num * 60) (q.den : Int)

/-- Python `round()` on the exact quotient `num / den` (`den > 0`):
round-half-to-even, as used for the per-day average at line 210 of
temps.py. -/
def pyRound (num den : Nat) : Nat :=
  let q := num / den
  let r := num % den
  if 2 * r < den then q
  else if den < 2 * r then q + 1
  else if q % 2 = 0 then q else q + 1

/-- The statistics record (`outdata` built by the `stats` branch of `run`),
with the optional `total_difftime` key present only when a non-zero
`hours_per_day` was supplied. -/
structure StatsRecord where
  nb_day : Nat
  first_day : Date
  last_day : Date
  total_worktime : Nat
  total_difftime : Option Int
  average_per_day : Nat
deriving DecidableEq, Repr

/-- The stats accumulation loop (lines 184-188 of temps.py): for each entry
in order, its date paired with its worked minutes; `none` as soon as any
`working_time` raises. -/
def scanEntries (clock : Clock) : List Entry → Option (List (Date × Nat))
  | [] => some []
  | e :: rest =>
    match entryMinutes clock e, scanEntries clock rest with
    | some m, some ps => some ((e.date_base, m) :: ps)
    | _, _ => none

/-- First-occurrence deduplication, with an accumulator of already seen
keys: the iteration order of the `workamount` dict (insertion order). -/
def firstDedupAux (seen : List Date) : List Date → List Date
  | [] => []
  | d :: rest =>
    if d ∈ seen then firstDedupAux seen rest
    else d :: firstDedupAux (d :: seen) rest

/-- The distinct keys of the `workamount` dict, in insertion order. -/
def firstDedup (ds : List Date) : List Date := firstDedupAux [] ds

/-- Total minutes worked on day `d` (`workamount[d]`): the sum of the
worked minutes of the entries dated `d` (0 when the duration computation
raised — only used under the hypothesis that it did not). -/
def workamount (clock : Clock) (es : List Entry) (d : Date) : Nat :=
  ((es.filter (fun e => decide (e.date_base = d))).map
    (fun e => (entryMinutes clock e).getD 0)).sum

/-- The core of the `stats` branch of `run` (lines 176-211 of temps.py)
after the optional today-dropping step: `none` models the uncaught
exceptions (`IndexError` on an empty sequence, `ValueError` from a
negative duration). -/
def statsCore (clock : Clock) (es : List Entry) (hours_per_day : Option ℚ) :
    Option StatsRecord :=
  match es.head?, es.getLast?, scanEntries clock es with
  | some first, some last, some pairs =>
    let days := firstDedup (pairs.map Prod.fst)
    let wa : Date → Nat :=
      fun d => ((pairs.filter (fun p => decide (p.1 = d))).map Prod.snd).sum
    some
      { nb_day := days.length
        first_day := first.date_base
        last_day := last.date_base
        total_worktime := (pairs.map Prod.snd).sum
        total_difftime :=
          match hours_per_day with
          | none => none
          | some q =>
            if q = 0 then none
            else some ((days.map (fun d => ((wa d : Int) - optimal_worktime q))).sum)
        average_per_day := pyRound ((days.map wa).sum) days.length }
  | _, _, _ => none

/-- The `while entries[-1].hr_date == today: entries.pop()` loop of lines
181-182 of temps.py, expressed on the reversed list: drop leading
today-dated entries; `none` when the list empties out, where the loop
condition raises `IndexError`. -/
def dropTodayRev (today : Date) : List Entry → Option (List Entry)
  | [] => none
  | e :: rest =>
    if e.date_base = today then dropTodayRev today rest else some (e :: rest)

/-- Drop trailing entries dated today, repeatedly; `none` when every entry
was dropped (the loop condition then indexes an empty list). -/
def dropTodayLoop (today : Date) (es : List Entry) : Option (List Entry) :=
  (dropTodayRev today es.reverse).map List.reverse

/-- The whole `stats` computation: the optional today-exclusion step
followed by the accumulation and record construction. -/
def statsOutput (clock : Clock) (es : List Entry) (hours_per_day : Option ℚ)
    (include_today : Bool) : Option StatsRecord :=
  if include_today then statsCore clock es hours_per_day
  else (dropTodayLoop clock.today es).bind (fun es' => statsCore clock es' hours_per_day)

/-- The three CLI actions accepted by `run`. -/
inductive RunAction where
  | arrive
  | quit
  | stats
deriving DecidableEq, Repr

/-- Outcome of one `run` invocation: an updated log to persist
(arrive/quit success), `conflict` for the `return print(...)`/`None`
outcomes, a statistics record, or an uncaught exception. -/
inductive RunResult where
  | updated (entries : List Entry)
  | conflict
  | statsOut (rec : StatsRecord)
  | error
deriving DecidableEq, Repr

/-- A line printed through the possibly-silenced `print` (lines 141-144 of
temps.py): suppressed when porcelain mode is active. -/
def emit (porcelain : Bool) (msg : String) : List String :=
  if porcelain then [] else [msg]

/-- Model of `run` (lines 138-220 of temps.py), returning the result and
the printed lines.  The `overwrite` parameter stands for the CLI
`--overwrite` flag: the `args.overwrite` global read inside `run` is the
very value passed as `run`'s `overwrite` argument at the call site
(line 232).  `dry_run` is ignored inside `run` (it only gates persistence
in `__main__`) and is omitted. -/
def run (clock : Clock) (action : RunAction) (entries : List Entry)
    (overwrite : Bool) (hours_per_day : Option ℚ) (porcelain : Bool)
    (include_today : Bool) : RunResult × List String :=
  match entries.getLast? with
  | none => (.error, [])
  | some last =>
    if maxDateOf (entries.map (·.date_base)) = some last.date_base then
      let msgs0 := emit porcelain
        (if last.date_base = clock.today then "Last entry is today."
         else "Last entry is earlier.")
      match action with
      | .arrive =>
        if last.time_stop = none then
          if overwrite then
            (.updated (entries.dropLast ++ [{ last with time_start := clock.now }]),
             msgs0 ++ emit porcelain "Changed last arrival at now.")
          else
            (.conflict,
             msgs0 ++ emit porcelain "Oops! The last entry is unfinished. You either never quit, or used the wrong command.")
        else
          (.updated (entries ++ [Entry.now_arrived clock]),
           msgs0 ++ emit porcelain "Added a new entry, arrival now.")
      | .quit =>
        if last.time_stop = none then
          (.updated (entries.dropLast ++ [{ last with time_stop := some clock.now }]),
           msgs0 ++ emit porcelain "Changed last entry, quitting now.")
        else if overwrite then
          (.error, msgs0)
        else
          (.conflict,
           msgs0 ++ emit porcelain "Oops! No unfinished entry. You either never arrived, or used the wrong command.")
      | .stats =>
        match statsOutput clock entries hours_per_day include_today with
        | none => (.error, msgs0)
        | some rec =>
          (.statsOut rec,
           msgs0 ++ emit porcelain "Statistics summary." ++
             (if porcelain then ["porcelain key-value dump"] else []))
    else (.error, [])

/-- Model of the persistence step of `__main__` (lines 233-237 of
temps.py): only a returned tuple of entries is written back; a conflict
(`None`) or a stats record leaves the stored log untouched. -/
def persistedAfter (oldEntries : List Entry) (res : RunResult) : List Entry :=
  match res with
  | .updated es => es
  | _ => oldEntries

/-- Python format spec `{:02d}`: decimal rendering padded with a leading
zero up to width 2 (a negative number's sign already fills the width
for single-digit magnitudes). -/
def pad2 (n : Int) : List Char :=
  if n < 0 then '-' :: Nat.toDigits 10 (-n).toNat
  else if n < 10 then '0' :: Nat.toDigits 10 n.toNat
  else Nat.toDigits 10 n.toNat

/-- Model of `minutes_to_hr` (lines 223-224 of temps.py):
format string `{:02d}h{:02d}m` applied to `minutes // 60` and
`minutes % 60` (Python floor division and floor modulus). -/
def minutes_to_hr (minutes : Int) : String :=
  ⟨pad2 (minutes.fdiv 60) ++ 'h' :: (pad2 (minutes.fmod 60) ++ ['m'])⟩

/-- Numeric value of a decimal digit character. -/
def digitVal (c : Char) : Nat := c.toNat - 48

/-- Model of the `strptime` directive `%H` as compiled by Python's
`_strptime` (regex `2[0-3]|[0-1]\d|\d`, alternatives tried in this
order): consume an hour from the character stream, returning the value
and the rest, or `none` when no alternative matches. -/
def matchH : List Char → Option (Nat × List Char)
  | [] => none
  | [c1] => if c1.isDigit then some (digitVal c1, []) else none
  | c1 :: c2 :: rest =>
    if c1 = '2' ∧ '0' ≤ c2 ∧ c2 ≤ '3' then some (20 + digitVal c2, rest)
    else if (c1 = '0' ∨ c1 = '1') ∧ c2.isDigit then
      some (digitVal c1 * 10 + digitVal c2, rest)
    else if c1.isDigit then some (digitVal c1, c2 :: rest)
    else none

/-- Model of the `strptime` directive `%M` (regex `[0-5]\d|\d`). -/
def matchM : List Char → Option (Nat × List Char)
  | [] => none
  | [c1] => if c1.isDigit then some (digitVal c1, []) else none
  | c1 :: c2 :: rest =>
    if '0' ≤ c1 ∧ c1 ≤ '5' ∧ c2.isDigit then
      some (digitVal c1 * 10 + digitVal c2, rest)
    else if c1.isDigit then some (digitVal c1, c2 :: rest)
    else none

/-- Model of `datetime_time_from_hour` (lines 109-112 of temps.py) on the
character stream: `strptime` with format `%Hh` when the string ends with
`h`, else `%Hh%M`; `strptime` raises (`none`) on a failed directive, a
failed literal, or unconverted trailing data. A missing minute field
defaults to 0. -/
def parseHourChars (cs : List Char) : Option Time :=
  if cs.getLast? = some 'h' then
    match matchH cs with
    | some (h, rest) => if rest = ['h'] then some ⟨h, 0⟩ else none
    | none => none
  else
    match matchH cs with
    | some (h, rest) =>
      match rest with
      | 'h' :: rest2 =>
        (match matchM rest2 with
         | some (m, []) => some ⟨h, m⟩
         | _ => none)
      | _ => none
    | none => none

/-- Model of `datetime_time_from_hour` on a string. -/
def datetime_time_from_hour (s : String) : Option Time :=
  parseHourChars s.data

/-- A dispatched desktop notification (one `notify-send` invocation of
notify.py). -/
inductive Notification where
  | overwork (msg : String)
  | workNeeded (msg : String)
deriving DecidableEq, Repr

/-- Decision logic of notify.py (lines 16-21): given the
`total_difftime` field of the stats record, the list of notifications
dispatched, in order.  The two `if` statements are independent. -/
def notifications (total_difftime : Int) : List Notification :=
  (if total_difftime > 10 then
    [Notification.overwork ("OVERWORK: " ++ minutes_to_hr total_difftime)]
   else []) ++
  (if total_difftime < 10 then
    [Notification.workNeeded ("WORK NEEDED: " ++ minutes_to_hr (-total_difftime))]
   else [])


/-! ### Helper lemmas -/

theorem dateLe_antisymm {a b : Date} (h1 : dateLe a b) (h2 : dateLe b a) : a = b := by
  rcases a with ⟨y1, m1, d1⟩
  rcases b with ⟨y2, m2, d2⟩
  simp only [dateLe, dateLt, Date.mk.injEq] at h1 h2 ⊢
  omega

theorem scanEntries_map_fst (clock : Clock) :
    ∀ (es : List Entry) (ps : List (Date × Nat)),
      scanEntries clock es = some ps → ps.map Prod.fst = es.map (·.date_base) := by
  intro es
  induction es with
  | nil =>
    intro ps h
    simp only [scanEntries, Option.some.injEq] at h
    subst h; rfl
  | cons e rest ih =>
    intro ps h
    cases hm : entryMinutes clock e with
    | none => simp [scanEntries, hm] at h
    | some m =>
      cases hs : scanEntries clock rest with
      | none => simp [scanEntries, hm, hs] at h
      | some ps' =>
        simp only [scanEntries, hm, hs, Option.some.injEq] at h
        subst h
        simp [ih ps' hs]

theorem workamount_cons (clock : Clock) (e : Entry) (rest : List Entry) (d : Date) :
    workamount clock (e :: rest) d =
      (if e.date_base = d then (entryMinutes clock e).getD 0 else 0) +
        workamount clock rest d := by
  by_cases hd : e.date_base = d <;>
    simp [workamount, List.filter_cons, hd]

theorem scanEntries_filter_sum (clock : Clock) :
    ∀ (es : List Entry) (ps : List (Date × Nat)),
      scanEntries clock es = some ps →
      ∀ d : Date,
        ((ps.filter (fun p => decide (p.1 = d))).map Prod.snd).sum =
          workamount clock es d := by
  intro es
  induction es with
  | nil =>
    intro ps h d
    simp only [scanEntries, Option.some.injEq] at h
    subst h
    simp [workamount]
  | cons e rest ih =>
    intro ps h d
    cases hm : entryMinutes clock e with
    | none => simp [scanEntries, hm] at h
    | some m =>
      cases hs : scanEntries clock rest with
      | none => simp [scanEntries, hm, hs] at h
      | some ps' =>
        simp only [scanEntries, hm, hs, Option.some.injEq] at h
        subst h
        rw [workamount_cons, ← ih ps' hs d]
        by_cases hd : e.date_base = d <;>
          simp [List.filter_cons, hd, hm]

theorem scanEntries_none_of_mem (clock : Clock) {e : Entry}
    (he : entryMinutes clock e = none) :
    ∀ es : List Entry, e ∈ es → scanEntries clock es = none := by
  intro es
  induction es with
  | nil => intro h; cases h
  | cons a rest ih =>
    intro h
    rcases List.mem_cons.mp h with rfl | hmem
    · simp [scanEntries, he]
    · cases hm : entryMinutes clock a <;> simp [scanEntries, hm, ih hmem]

theorem mem_firstDedupAux (x : Date) :
    ∀ (ds seen : List Date), x ∈ firstDedupAux seen ds ↔ x ∈ ds ∧ x ∉ seen := by
  intro ds
  induction ds with
  | nil => intro seen; simp [firstDedupAux]
  | cons d rest ih =>
    intro seen
    by_cases hd : d ∈ seen
    · rw [firstDedupAux, if_pos hd, ih seen]
      simp only [List.mem_cons]
      constructor
      · rintro ⟨h1, h2⟩; exact ⟨Or.inr h1, h2⟩
      · rintro ⟨h1 | h1, h2⟩
        · exact absurd (h1 ▸ hd) h2
        · exact ⟨h1, h2⟩
    · rw [firstDedupAux, if_neg hd]
      simp only [List.mem_cons, ih (d :: seen), List.mem_cons]
      constructor
      · rintro (rfl | ⟨h1, h2⟩)
        · exact ⟨Or.inl rfl, hd⟩
        · exact ⟨Or.inr h1, fun hx => h2 (Or.inr hx)⟩
      · rintro ⟨h1 | h1, h2⟩
        · exact Or.inl h1
        · by_cases hx : x = d
          · exact Or.inl hx
          · exact Or.inr ⟨h1, fun hc => by
              rcases hc with hc | hc
              · exact hx hc
              · exact h2 hc⟩

theorem nodup_firstDedupAux :
    ∀ (ds seen : List Date), (firstDedupAux seen ds).Nodup := by
  intro ds
  induction ds with
  | nil => intro seen; simp [firstDedupAux]
  | cons d rest ih =>
    intro seen
    by_cases hd : d ∈ seen
    · rw [firstDedupAux, if_pos hd]; exact ih seen
    · rw [firstDedupAux, if_neg hd]
      refine List.nodup_cons.mpr ⟨?_, ih (d :: seen)⟩
      rw [mem_firstDedupAux]
      rintro ⟨-, h2⟩
      exact h2 (List.mem_cons_self d seen)

theorem mem_firstDedup (x : Date) (ds : List Date) :
    x ∈ firstDedup ds ↔ x ∈ ds := by
  rw [firstDedup, mem_firstDedupAux]
  simp

theorem nodup_firstDedup (ds : List Date) : (firstDedup ds).Nodup :=
  nodup_firstDedupAux ds []

theorem toFinset_firstDedup (ds : List Date) :
    (firstDedup ds).toFinset = ds.toFinset := by
  ext x
  simp [mem_firstDedup]

theorem dropTodayRev_eq_filter (today : Date) :
    ∀ l : List Entry,
      l.Pairwise (fun a b => dateLe b.date_base a.date_base) →
      (∀ e ∈ l, dateLe e.date_base today) →
      (∃ e ∈ l, e.date_base ≠ today) →
      dropTodayRev today l =
        some (l.filter (fun e => decide (e.date_base ≠ today))) := by
  intro l
  induction l with
  | nil => rintro - - ⟨e, he, -⟩; cases he
  | cons e rest ih =>
    intro hpair hbound hex
    obtain ⟨hhead, hpair'⟩ := List.pairwise_cons.mp hpair
    by_cases hd : e.date_base = today
    · rw [dropTodayRev, if_pos hd]
      have hex' : ∃ x ∈ rest, x.date_base ≠ today := by
        rcases hex with ⟨x, hx, hne⟩
        rcases List.mem_cons.mp hx with rfl | hx'
        · exact absurd hd hne
        · exact ⟨x, hx', hne⟩
      rw [ih hpair' (fun x hx => hbound x (List.mem_cons_of_mem _ hx)) hex']
      simp [List.filter_cons, hd]
    · rw [dropTodayRev, if_neg hd]
      have hrest : ∀ x ∈ rest, (decide (x.date_base ≠ today)) = true := by
        intro x hx
        simp only [decide_eq_true_eq]
        intro hxt
        exact hd (dateLe_antisymm (hbound e (List.mem_cons_self e rest))
          (hxt ▸ hhead x hx))
      have : (decide (e.date_base ≠ today)) = true := by simp [hd]
      rw [List.filter_cons, if_pos this, List.filter_eq_self.mpr hrest]

theorem dropTodayLoop_eq_filter (today : Date) (es : List Entry)
    (hsorted : es.Pairwise (fun a b => dateLe a.date_base b.date_base))
    (hbound : ∀ e ∈ es, dateLe e.date_base today)
    (hex : ∃ e ∈ es, e.date_base ≠ today) :
    dropTodayLoop today es =
      some (es.filter (fun e => decide (e.date_base ≠ today))) := by
  have h1 : es.reverse.Pairwise (fun a b => dateLe b.date_base a.date_base) :=
    List.pairwise_reverse.mpr hsorted
  have h2 : ∀ e ∈ es.reverse, dateLe e.date_base today := by
    intro e he; exact hbound e (List.mem_reverse.mp he)
  have h3 : ∃ e ∈ es.reverse, e.date_base ≠ today := by
    rcases hex with ⟨e, he, hne⟩
    exact ⟨e, List.mem_reverse.mpr he, hne⟩
  rw [dropTodayLoop, dropTodayRev_eq_filter today es.reverse h1 h2 h3]
  simp [List.filter_reverse]

/-! ### Claim theorems -/

/-- C1 (counterexample): on the spec scenario
`[ {24/01/01, 08h00, 12h00}, {24/01/02, 09h00, 17h30} ]` with target 8.0
hours per day, `stats` computes `total_worktime = 750` (not 730) and
`average_per_day = 375` (not 365): the claim's totals are refuted. -/
theorem c1_counterexample :
    (statsOutput ⟨⟨24,1,3⟩, ⟨12,0⟩⟩
        [⟨⟨24,1,1⟩, ⟨8,0⟩, some ⟨12,0⟩⟩, ⟨⟨24,1,2⟩, ⟨9,0⟩, some ⟨17,30⟩⟩]
        (some 8) true).map StatsRecord.total_worktime = some 750 ∧
    (statsOutput ⟨⟨24,1,3⟩, ⟨12,0⟩⟩
        [⟨⟨24,1,1⟩, ⟨8,0⟩, some ⟨12,0⟩⟩, ⟨⟨24,1,2⟩, ⟨9,0⟩, some ⟨17,30⟩⟩]
        (some 8) true).map StatsRecord.total_worktime ≠ some 730 ∧
    (statsOutput ⟨⟨24,1,3⟩, ⟨12,0⟩⟩
        [⟨⟨24,1,1⟩, ⟨8,0⟩, some ⟨12,0⟩⟩, ⟨⟨24,1,2⟩, ⟨9,0⟩, some ⟨17,30⟩⟩]
        (some 8) true).map StatsRecord.average_per_day ≠ some 365 := by
  decide

/-- C1 (amended): on the two-entry scenario with target 8.0 hours per day,
`stats` returns worked_days_count 2, per-day deviations -240 and +30,
total deviation -210, total worked minutes 750 and average 375 per day. -/
theorem c1_scenario :
    statsOutput ⟨⟨24,1,3⟩, ⟨12,0⟩⟩
      [⟨⟨24,1,1⟩, ⟨8,0⟩, some ⟨12,0⟩⟩, ⟨⟨24,1,2⟩, ⟨9,0⟩, some ⟨17,30⟩⟩]
      (some 8) true =
      some { nb_day := 2, first_day := ⟨24,1,1⟩, last_day := ⟨24,1,2⟩,
             total_worktime := 750, total_difftime := some (-210),
             average_per_day := 375 } ∧
    (workamount ⟨⟨24,1,3⟩, ⟨12,0⟩⟩
        [⟨⟨24,1,1⟩, ⟨8,0⟩, some ⟨12,0⟩⟩, ⟨⟨24,1,2⟩, ⟨9,0⟩, some ⟨17,30⟩⟩]
        ⟨24,1,1⟩ : Int) - optimal_worktime 8 = -240 ∧
    (workamount ⟨⟨24,1,3⟩, ⟨12,0⟩⟩
        [⟨⟨24,1,1⟩, ⟨8,0⟩, some ⟨12,0⟩⟩, ⟨⟨24,1,2⟩, ⟨9,0⟩, some ⟨17,30⟩⟩]
        ⟨24,1,2⟩ : Int) - optimal_worktime 8 = 30 := by
  decide

/-- C3 (counterexample): the output of `minutes_to_hr` carries a trailing
duration marker `m` (`"00h00m"` for 0), which the `%Hh%M` parse of
`datetime_time_from_hour` rejects as unconverted trailing data: the
format-then-parse round trip fails already at m = 0. -/
theorem c3_counterexample :
    minutes_to_hr 0 = "00h00m" ∧
    datetime_time_from_hour (minutes_to_hr 0) = none := by
  decide

/-- C3 (amended): for non-negative m below 1440 (so the hour field is a
parseable 0-23 hour), parsing the `minutes_to_hr` rendering with its
trailing `m` character removed recovers hours `m / 60` and minutes
`m % 60`; the unmodified rendering itself is rejected by the parser. -/
theorem c3_roundtrip_amended :
    ∀ m : Nat, m < 1440 →
      parseHourChars ((minutes_to_hr (m : Int)).data.dropLast) =
        some ⟨m / 60, m % 60⟩ := by
  intro m hm
  have key : ∀ a : Nat, a < 24 → ∀ b : Nat, b < 60 →
      parseHourChars ((minutes_to_hr ((a * 60 + b : Nat) : Int)).data.dropLast) =
        some ⟨a, b⟩ := by decide
  have h1 : m = m / 60 * 60 + m % 60 := by omega
  have h2 : m / 60 < 24 := by omega
  have h3 : m % 60 < 60 := Nat.mod_lt _ (by omega)
  have hdm : (m / 60 * 60 + m % 60) / 60 = m / 60 := by omega
  have hmm : (m / 60 * 60 + m % 60) % 60 = m % 60 := by omega
  have hk := key (m / 60) h2 (m % 60) h3
  rw [← h1] at hk
  exact hk

/-- C3 witness: the amended round trip at m = 125 (`"02h05m"`). -/
theorem c3_roundtrip_amended_witness :
    (125 : Nat) < 1440 ∧
    parseHourChars ((minutes_to_hr ((125 : Nat) : Int)).data.dropLast) =
      some ⟨2, 5⟩ :=
  ⟨by decide, c3_roundtrip_amended 125 (by decide)⟩

/-- C4 (code bug): at total deviation 0 the notification tool dispatches a
"work needed" notification (its second condition is `< 10`, not `< -10`),
whereas the claim requires silence at 0; moreover at deviation 9 it also
notifies although the magnitude is below the 10-minute threshold, and at
deviation 10 it stays silent although the claim requires dispatch. -/
theorem c4_notify_behavior :
    notifications 0 =
      [Notification.workNeeded ("WORK NEEDED: " ++ minutes_to_hr 0)] ∧
    notifications 9 ≠ [] ∧
    notifications 10 = [] ∧
    notifications (-5) ≠ [] := by
  decide

/-- C8 (counterexample): an entry finishing at 09h30 after starting at
10h00 does not yield a propagating negative duration: `working_time`
fails (the `datetime.time` constructor receives hour -1 and raises). -/
theorem c8_counterexample :
    Entry.working_time ⟨⟨24,2,1⟩, ⟨10,0⟩, some ⟨9,30⟩⟩ ⟨⟨24,2,1⟩, ⟨12,0⟩⟩
      = none := by
  decide

/-- C8 (amended): for every finished entry whose end time-of-day precedes
its start, the duration computation fails (returns no value, modelling the
`ValueError` raised on the negative hour), and any stats computation over
a log containing such an entry fails as well instead of propagating a
negative minute count. -/
theorem c8_negative_duration_raises
    (clock : Clock) (e : Entry) (t : Time)
    (hstop : e.time_stop = some t)
    (hlt : timeToMinutes t < timeToMinutes e.time_start) :
    e.working_time clock = none ∧
    ∀ (es : List Entry) (hpd : Option ℚ), e ∈ es →
      statsCore clock es hpd = none := by
  have hwt : ((timeToMinutes t : Int) - (timeToMinutes e.time_start : Int)) < 0 := by
    have : (timeToMinutes t : Int) < (timeToMinutes e.time_start : Int) := by
      exact_mod_cast hlt
    omega
  have hwfin : e.working_time clock =
      (if 0 ≤ ((timeToMinutes t : Int) - (timeToMinutes e.time_start : Int)).fdiv 60 ∧
          ((timeToMinutes t : Int) - (timeToMinutes e.time_start : Int)).fdiv 60 ≤ 23 ∧
          0 ≤ ((timeToMinutes t : Int) - (timeToMinutes e.time_start : Int)).fmod 60 ∧
          ((timeToMinutes t : Int) - (timeToMinutes e.time_start : Int)).fmod 60 ≤ 59
       then some ⟨(((timeToMinutes t : Int) - (timeToMinutes e.time_start : Int)).fdiv 60).toNat,
                  (((timeToMinutes t : Int) - (timeToMinutes e.time_start : Int)).fmod 60).toNat⟩
       else none) := by
    unfold Entry.working_time
    rw [hstop]
  have hmain : e.working_time clock = none := by
    have hid := Int.fdiv_add_fmod
      ((timeToMinutes t : Int) - (timeToMinutes e.time_start : Int)) 60
    have hnn := Int.fmod_nonneg'
      ((timeToMinutes t : Int) - (timeToMinutes e.time_start : Int))
      (by omega : (0:Int) < 60)
    have hub := Int.fmod_lt_of_pos
      ((timeToMinutes t : Int) - (timeToMinutes e.time_start : Int))
      (by omega : (0:Int) < 60)
    rw [hwfin, if_neg]
    intro hcond
    omega
  refine ⟨hmain, ?_⟩
  intro es hpd hmem
  have hem : entryMinutes clock e = none := by
    simp [entryMinutes, hmain]
  have hscan := scanEntries_none_of_mem clock hem es hmem
  cases es with
  | nil => cases hmem
  | cons a l =>
    cases hl : (a :: l).getLast? with
    | none => simp at hl
    | some last => simp [statsCore, hscan, hl]

/-- C8 witness: the amended theorem at the concrete entry 10h00 to 09h30:
its duration computation and the stats over the singleton log fail. -/
theorem c8_negative_duration_witness :
    Entry.working_time ⟨⟨24,2,2⟩, ⟨10,0⟩, some ⟨9,30⟩⟩ ⟨⟨24,2,2⟩, ⟨11,0⟩⟩ = none ∧
    statsCore ⟨⟨24,2,2⟩, ⟨11,0⟩⟩ [⟨⟨24,2,2⟩, ⟨10,0⟩, some ⟨9,30⟩⟩] none = none := by
  refine ⟨(c8_negative_duration_raises ⟨⟨24,2,2⟩, ⟨11,0⟩⟩
    ⟨⟨24,2,2⟩, ⟨10,0⟩, some ⟨9,30⟩⟩ ⟨9,30⟩ rfl (by decide)).1, ?_⟩
  exact (c8_negative_duration_raises ⟨⟨24,2,2⟩, ⟨11,0⟩⟩
    ⟨⟨24,2,2⟩, ⟨10,0⟩, some ⟨9,30⟩⟩ ⟨9,30⟩ rfl (by decide)).2
    [⟨⟨24,2,2⟩, ⟨10,0⟩, some ⟨9,30⟩⟩] none (by decide)

/-- C5: on a log whose last entry is unfinished, `arrive` with overwrite
sets the last entry's start to the clock's current time and the log stays
OPEN: the updated log's last entry is the old one with its start replaced
by now, and it is still unfinished. -/
theorem c5_arrive_overwrite_stays_open
    (clock : Clock) (entries : List Entry) (last : Entry)
    (hlast : entries.getLast? = some last)
    (hopen : last.time_stop = none)
    (hmax : maxDateOf (entries.map (·.date_base)) = some last.date_base)
    (hpd : Option ℚ) (porc inc : Bool) :
    (run clock .arrive entries true hpd porc inc).1 =
      RunResult.updated
        (entries.dropLast ++ [{ last with time_start := clock.now }]) ∧
    (entries.dropLast ++ [{ last with time_start := clock.now }]).getLast? =
      some { last with time_start := clock.now } ∧
    ({ last with time_start := clock.now } : Entry).time_stop = none := by
  refine ⟨?_, List.getLast?_concat _, hopen⟩
  simp [run, hlast, hmax, hopen]

/-- C5 witness: the theorem applied to a one-entry open log. -/
theorem c5_arrive_overwrite_witness :
    (run ⟨⟨24,4,2⟩, ⟨9,15⟩⟩ .arrive [⟨⟨24,4,1⟩, ⟨8,0⟩, none⟩] true none false true).1 =
      RunResult.updated
        (([⟨⟨24,4,1⟩, ⟨8,0⟩, none⟩] : List Entry).dropLast ++
          [{ (⟨⟨24,4,1⟩, ⟨8,0⟩, none⟩ : Entry) with time_start := (⟨9,15⟩ : Time) }]) ∧
    (([⟨⟨24,4,1⟩, ⟨8,0⟩, none⟩] : List Entry).dropLast ++
        [{ (⟨⟨24,4,1⟩, ⟨8,0⟩, none⟩ : Entry) with time_start := (⟨9,15⟩ : Time) }]).getLast? =
      some { (⟨⟨24,4,1⟩, ⟨8,0⟩, none⟩ : Entry) with time_start := (⟨9,15⟩ : Time) } ∧
    ({ (⟨⟨24,4,1⟩, ⟨8,0⟩, none⟩ : Entry) with time_start := (⟨9,15⟩ : Time) } : Entry).time_stop = none :=
  c5_arrive_overwrite_stays_open ⟨⟨24,4,2⟩, ⟨9,15⟩⟩ [⟨⟨24,4,1⟩, ⟨8,0⟩, none⟩]
    ⟨⟨24,4,1⟩, ⟨8,0⟩, none⟩ (by decide) (by decide) (by decide) none false true

/-- C6: on a log whose last entry is unfinished, `arrive` without
overwrite yields a conflict: nothing is mutated, the persisted log equals
the input log, and (outside porcelain mode) the conflict message is
reported. -/
theorem c6_arrive_conflict_no_mutation
    (clock : Clock) (entries : List Entry) (last : Entry)
    (hlast : entries.getLast? = some last)
    (hopen : last.time_stop = none)
    (hmax : maxDateOf (entries.map (·.date_base)) = some last.date_base)
    (hpd : Option ℚ) (porc inc : Bool) :
    (run clock .arrive entries false hpd porc inc).1 = RunResult.conflict ∧
    persistedAfter entries (run clock .arrive entries false hpd porc inc).1 =
      entries ∧
    (porc = false →
      "Oops! The last entry is unfinished. You either never quit, or used the wrong command."
        ∈ (run clock .arrive entries false hpd porc inc).2) := by
  have h1 : (run clock .arrive entries false hpd porc inc).1 = RunResult.conflict := by
    simp [run, hlast, hmax, hopen]
  refine ⟨h1, by rw [h1]; rfl, ?_⟩
  rintro rfl
  simp [run, hlast, hmax, hopen, emit]

/-- C6 witness: the theorem applied to a one-entry open log. -/
theorem c6_arrive_conflict_witness :
    (run ⟨⟨24,4,3⟩, ⟨9,0⟩⟩ .arrive [⟨⟨24,4,3⟩, ⟨8,0⟩, none⟩] false none false true).1 =
      RunResult.conflict ∧
    persistedAfter [⟨⟨24,4,3⟩, ⟨8,0⟩, none⟩]
      (run ⟨⟨24,4,3⟩, ⟨9,0⟩⟩ .arrive [⟨⟨24,4,3⟩, ⟨8,0⟩, none⟩] false none false true).1 =
      [⟨⟨24,4,3⟩, ⟨8,0⟩, none⟩] ∧
    (false = false →
      "Oops! The last entry is unfinished. You either never quit, or used the wrong command."
        ∈ (run ⟨⟨24,4,3⟩, ⟨9,0⟩⟩ .arrive [⟨⟨24,4,3⟩, ⟨8,0⟩, none⟩] false none false true).2) :=
  c6_arrive_conflict_no_mutation ⟨⟨24,4,3⟩, ⟨9,0⟩⟩ [⟨⟨24,4,3⟩, ⟨8,0⟩, none⟩]
    ⟨⟨24,4,3⟩, ⟨8,0⟩, none⟩ (by decide) (by decide) (by decide) none false true

/-- C9: on a log whose last entry is unfinished, `quit` only sets the last
entry's end to the clock's current time: the length is preserved, every
entry but the last is unchanged, the last entry keeps its day and start,
and it is finished afterwards. -/
theorem c9_quit_frame
    (clock : Clock) (entries : List Entry) (last : Entry)
    (hlast : entries.getLast? = some last)
    (hopen : last.time_stop = none)
    (hmax : maxDateOf (entries.map (·.date_base)) = some last.date_base)
    (ow : Bool) (hpd : Option ℚ) (porc inc : Bool) :
    (run clock .quit entries ow hpd porc inc).1 =
      RunResult.updated
        (entries.dropLast ++ [{ last with time_stop := some clock.now }]) ∧
    (entries.dropLast ++ [{ last with time_stop := some clock.now }]).length =
      entries.length ∧
    (entries.dropLast ++ [{ last with time_stop := some clock.now }]).dropLast =
      entries.dropLast ∧
    (entries.dropLast ++ [{ last with time_stop := some clock.now }]).getLast? =
      some { last with time_stop := some clock.now } ∧
    ({ last with time_stop := some clock.now } : Entry).date_base = last.date_base ∧
    ({ last with time_stop := some clock.now } : Entry).time_start = last.time_start ∧
    ({ last with time_stop := some clock.now } : Entry).time_stop = some clock.now := by
  have hne : entries ≠ [] := by
    intro h
    rw [h] at hlast
    simp at hlast
  have hlen : 0 < entries.length := List.length_pos.mpr hne
  refine ⟨?_, ?_, List.dropLast_concat, List.getLast?_concat _, rfl, rfl, rfl⟩
  · simp [run, hlast, hmax, hopen]
  · simp only [List.length_append, List.length_dropLast, List.length_cons,
      List.length_nil]
    omega

/-- C9 witness: the theorem applied to a two-entry log with an open last
entry. -/
theorem c9_quit_frame_witness :
    (run ⟨⟨24,4,5⟩, ⟨17,0⟩⟩ .quit
        [⟨⟨24,4,4⟩, ⟨8,0⟩, some ⟨16,0⟩⟩, ⟨⟨24,4,5⟩, ⟨9,0⟩, none⟩]
        false none false true).1 =
      RunResult.updated
        (([⟨⟨24,4,4⟩, ⟨8,0⟩, some ⟨16,0⟩⟩, ⟨⟨24,4,5⟩, ⟨9,0⟩, none⟩] : List Entry).dropLast ++
          [{ (⟨⟨24,4,5⟩, ⟨9,0⟩, none⟩ : Entry) with time_stop := some (⟨17,0⟩ : Time) }]) ∧
    (([⟨⟨24,4,4⟩, ⟨8,0⟩, some ⟨16,0⟩⟩, ⟨⟨24,4,5⟩, ⟨9,0⟩, none⟩] : List Entry).dropLast ++
        [{ (⟨⟨24,4,5⟩, ⟨9,0⟩, none⟩ : Entry) with time_stop := some (⟨17,0⟩ : Time) }]).length =
      [⟨⟨24,4,4⟩, ⟨8,0⟩, some ⟨16,0⟩⟩, (⟨⟨24,4,5⟩, ⟨9,0⟩, none⟩ : Entry)].length ∧
    (([⟨⟨24,4,4⟩, ⟨8,0⟩, some ⟨16,0⟩⟩, ⟨⟨24,4,5⟩, ⟨9,0⟩, none⟩] : List Entry).dropLast ++
        [{ (⟨⟨24,4,5⟩, ⟨9,0⟩, none⟩ : Entry) with time_stop := some (⟨17,0⟩ : Time) }]).dropLast =
      [⟨⟨24,4,4⟩, ⟨8,0⟩, some ⟨16,0⟩⟩, (⟨⟨24,4,5⟩, ⟨9,0⟩, none⟩ : Entry)].dropLast ∧
    (([⟨⟨24,4,4⟩, ⟨8,0⟩, some ⟨16,0⟩⟩, ⟨⟨24,4,5⟩, ⟨9,0⟩, none⟩] : List Entry).dropLast ++
        [{ (⟨⟨24,4,5⟩, ⟨9,0⟩, none⟩ : Entry) with time_stop := some (⟨17,0⟩ : Time) }]).getLast? =
      some { (⟨⟨24,4,5⟩, ⟨9,0⟩, none⟩ : Entry) with time_stop := some (⟨17,0⟩ : Time) } ∧
    ({ (⟨⟨24,4,5⟩, ⟨9,0⟩, none⟩ : Entry) with time_stop := some (⟨17,0⟩ : Time) } : Entry).date_base =
      (⟨⟨24,4,5⟩, ⟨9,0⟩, none⟩ : Entry).date_base ∧
    ({ (⟨⟨24,4,5⟩, ⟨9,0⟩, none⟩ : Entry) with time_stop := some (⟨17,0⟩ : Time) } : Entry).time_start =
      (⟨⟨24,4,5⟩, ⟨9,0⟩, none⟩ : Entry).time_start ∧
    ({ (⟨⟨24,4,5⟩, ⟨9,0⟩, none⟩ : Entry) with time_stop := some (⟨17,0⟩ : Time) } : Entry).time_stop =
      some (⟨17,0⟩ : Time) :=
  c9_quit_frame ⟨⟨24,4,5⟩, ⟨17,0⟩⟩
    [⟨⟨24,4,4⟩, ⟨8,0⟩, some ⟨16,0⟩⟩, ⟨⟨24,4,5⟩, ⟨9,0⟩, none⟩]
    ⟨⟨24,4,5⟩, ⟨9,0⟩, none⟩ (by decide) (by decide) (by decide) false none false true

/-- C10: the statistics result of `run` is the same whether porcelain mode
is on or off: the flag only selects which lines are printed, never any
field of the returned record. -/
theorem c10_porcelain_independence
    (clock : Clock) (entries : List Entry) (ow : Bool) (hpd : Option ℚ)
    (inc : Bool) :
    (run clock .stats entries ow hpd true inc).1 =
      (run clock .stats entries ow hpd false inc).1 := by
  cases hL : entries.getLast? with
  | none => simp [run, hL]
  | some last =>
    by_cases hmax : maxDateOf (entries.map (·.date_base)) = some last.date_base
    · cases hS : statsOutput clock entries hpd inc <;>
        simp [run, hL, hmax, hS]
    · simp [run, hL, hmax]

/-- C2 (counterexample): on a valid log whose every entry is dated today,
`stats` with include_today = false does not return a today-free record:
the trailing-drop loop empties the list and then indexes it, so the
computation fails (the claim asserted this very case is handled). -/
theorem c2_all_today_counterexample :
    dropTodayLoop ⟨24,3,5⟩ [⟨⟨24,3,5⟩, ⟨8,0⟩, some ⟨9,0⟩⟩] = none ∧
    statsOutput ⟨⟨24,3,5⟩, ⟨10,0⟩⟩ [⟨⟨24,3,5⟩, ⟨8,0⟩, some ⟨9,0⟩⟩]
      (some 8) false = none ∧
    (run ⟨⟨24,3,5⟩, ⟨10,0⟩⟩ .stats [⟨⟨24,3,5⟩, ⟨8,0⟩, some ⟨9,0⟩⟩]
      false (some 8) false false).1 = RunResult.error := by
  decide

/-- C2 (amended): on a date-sorted log whose entries are all dated no
later than today and at least one of which is dated before today, `stats`
with include_today = false drops exactly the trailing today-dated entries
and computes the record over the remaining entries, none of which is dated
today — so the current date's minutes are excluded; when every entry is
dated today the computation instead fails. -/
theorem c2_stats_excludes_today
    (clock : Clock) (es : List Entry) (hpd : Option ℚ)
    (hsorted : es.Pairwise (fun a b => dateLe a.date_base b.date_base))
    (hbound : ∀ e ∈ es, dateLe e.date_base clock.today)
    (hex : ∃ e ∈ es, e.date_base ≠ clock.today) :
    dropTodayLoop clock.today es =
      some (es.filter (fun e => decide (e.date_base ≠ clock.today))) ∧
    statsOutput clock es hpd false =
      statsCore clock
        (es.filter (fun e => decide (e.date_base ≠ clock.today))) hpd ∧
    ∀ e ∈ es.filter (fun e => decide (e.date_base ≠ clock.today)),
      e.date_base ≠ clock.today := by
  have h := dropTodayLoop_eq_filter clock.today es hsorted hbound hex
  refine ⟨h, ?_, ?_⟩
  · simp [statsOutput, h]
  · intro e he
    have hm := List.mem_filter.mp he
    simpa using hm.2

/-- C2 witness: the theorem applied to a two-day log with the second day
being today. -/
theorem c2_stats_excludes_today_witness :
    dropTodayLoop ⟨24,3,6⟩
      [⟨⟨24,3,5⟩, ⟨8,0⟩, some ⟨9,0⟩⟩, ⟨⟨24,3,6⟩, ⟨8,0⟩, some ⟨9,0⟩⟩] =
      some (([⟨⟨24,3,5⟩, ⟨8,0⟩, some ⟨9,0⟩⟩, ⟨⟨24,3,6⟩, ⟨8,0⟩, some ⟨9,0⟩⟩] : List Entry).filter
        (fun e => decide (e.date_base ≠ (⟨24,3,6⟩ : Date)))) ∧
    statsOutput ⟨⟨24,3,6⟩, ⟨10,0⟩⟩
      [⟨⟨24,3,5⟩, ⟨8,0⟩, some ⟨9,0⟩⟩, ⟨⟨24,3,6⟩, ⟨8,0⟩, some ⟨9,0⟩⟩] (some 8) false =
      statsCore ⟨⟨24,3,6⟩, ⟨10,0⟩⟩
        (([⟨⟨24,3,5⟩, ⟨8,0⟩, some ⟨9,0⟩⟩, ⟨⟨24,3,6⟩, ⟨8,0⟩, some ⟨9,0⟩⟩] : List Entry).filter
          (fun e => decide (e.date_base ≠ (⟨24,3,6⟩ : Date)))) (some 8) ∧
    ∀ e ∈ ([⟨⟨24,3,5⟩, ⟨8,0⟩, some ⟨9,0⟩⟩, ⟨⟨24,3,6⟩, ⟨8,0⟩, some ⟨9,0⟩⟩] : List Entry).filter
        (fun e => decide (e.date_base ≠ (⟨24,3,6⟩ : Date))),
      e.date_base ≠ (⟨24,3,6⟩ : Date) :=
  c2_stats_excludes_today ⟨⟨24,3,6⟩, ⟨10,0⟩⟩
    [⟨⟨24,3,5⟩, ⟨8,0⟩, some ⟨9,0⟩⟩, ⟨⟨24,3,6⟩, ⟨8,0⟩, some ⟨9,0⟩⟩] (some 8)
    (by decide) (by decide) (by decide)

/-- The deviation field of a returned stats record, in closed form: absent
without a non-zero target, otherwise the sum of the per-day deviations
over the distinct days of the log. -/
theorem statsCore_total_difftime
    (clock : Clock) (es : List Entry) (hpd : Option ℚ) (rec : StatsRecord)
    (h : statsCore clock es hpd = some rec) :
    rec.total_difftime =
      match hpd with
      | none => none
      | some q =>
        if q = 0 then none
        else some (((es.map (·.date_base)).toFinset).sum
          (fun d => (workamount clock es d : Int) - optimal_worktime q)) := by
  cases es with
  | nil => simp [statsCore] at h
  | cons a l =>
    cases hl : (a :: l).getLast? with
    | none => simp at hl
    | some last =>
      cases hs : scanEntries clock (a :: l) with
      | none => simp [statsCore, hl, hs] at h
      | some pairs =>
        simp only [statsCore, List.head?_cons, hl, hs] at h
        injection h with h
        subst h
        cases hpd with
        | none => rfl
        | some q =>
          by_cases hq : q = 0
          · simp [hq]
          · simp only [if_neg hq]
            have hfst := scanEntries_map_fst clock (a :: l) pairs hs
            have hsum := scanEntries_filter_sum clock (a :: l) pairs hs
            have hfun :
                (fun d => (((pairs.filter (fun p => decide (p.1 = d))).map
                    Prod.snd).sum : Int) - optimal_worktime q) =
                (fun d => (workamount clock (a :: l) d : Int) -
                    optimal_worktime q) := by
              funext d
              rw [hsum d]
            rw [hfst, hfun, ← toFinset_firstDedup,
              List.sum_toFinset _ (nodup_firstDedup _)]

/-- C7: the deviation field is produced exactly for a non-zero target:
with hours_per_day absent or zero the record carries no deviation, and
with a non-zero target the total deviation is the sum, over exactly the
distinct days occurring in the log, of that day's worked minutes minus
the target minutes, absent days contributing nothing. -/
theorem c7_deviation_spec (clock : Clock) (es : List Entry) :
    (∀ rec : StatsRecord, statsCore clock es none = some rec →
      rec.total_difftime = none) ∧
    (∀ rec : StatsRecord, statsCore clock es (some 0) = some rec →
      rec.total_difftime = none) ∧
    (∀ (q : ℚ) (rec : StatsRecord), q ≠ 0 →
      statsCore clock es (some q) = some rec →
      rec.total_difftime =
        some (((es.map (·.date_base)).toFinset).sum
          (fun d => (workamount clock es d : Int) - optimal_worktime q))) := by
  refine ⟨?_, ?_, ?_⟩
  · intro rec h
    exact statsCore_total_difftime clock es none rec h
  · intro rec h
    have := statsCore_total_difftime clock es (some 0) rec h
    simpa using this
  · intro q rec hq h
    have := statsCore_total_difftime clock es (some q) rec h
    simpa [hq] using this

/-- C7 witness: the deviation clause applied to a concrete two-day log
with target 8 hours per day. -/
theorem c7_deviation_witness :
    (8 : ℚ) ≠ 0 ∧
    statsCore ⟨⟨24,5,3⟩, ⟨12,0⟩⟩
      [⟨⟨24,5,1⟩, ⟨8,0⟩, some ⟨16,0⟩⟩, ⟨⟨24,5,2⟩, ⟨9,0⟩, some ⟨18,0⟩⟩]
      (some 8) =
      some { nb_day := 2, first_day := ⟨24,5,1⟩, last_day := ⟨24,5,2⟩,
             total_worktime := 1020, total_difftime := some 60,
             average_per_day := 510 } ∧
    ({ nb_day := 2, first_day := ⟨24,5,1⟩, last_day := ⟨24,5,2⟩,
       total_worktime := 1020, total_difftime := some 60,
       average_per_day := 510 } : StatsRecord).total_difftime =
      some ((([⟨⟨24,5,1⟩, ⟨8,0⟩, some ⟨16,0⟩⟩,
               ⟨⟨24,5,2⟩, ⟨9,0⟩, some ⟨18,0⟩⟩] : List Entry).map
          (·.date_base)).toFinset.sum
        (fun d => (workamount ⟨⟨24,5,3⟩, ⟨12,0⟩⟩
            [⟨⟨24,5,1⟩, ⟨8,0⟩, some ⟨16,0⟩⟩, ⟨⟨24,5,2⟩, ⟨9,0⟩, some ⟨18,0⟩⟩]
            d : Int) - optimal_worktime 8)) :=
  ⟨by norm_num, by decide,
    (c7_deviation_spec ⟨⟨24,5,3⟩, ⟨12,0⟩⟩
        [⟨⟨24,5,1⟩, ⟨8,0⟩, some ⟨16,0⟩⟩, ⟨⟨24,5,2⟩, ⟨9,0⟩, some ⟨18,0⟩⟩]).2.2
      8 _ (by norm_num) (by decide)⟩
